import Mathlib

/-!
Verification of the size-analysis report tool
(`repo-scripts/size-analysis/analysis.ts`) and of the analytics
registration shim of this repository, via a shallow embedding.

Modelling conventions:
* JavaScript objects used as string-keyed records are embedded as
  association lists `List (String × α)` with JavaScript property-assignment
  semantics (`setKey`): assigning to an existing key overwrites the value in
  place (keeping the key's original insertion position); assigning a fresh
  key appends it.  This matches insertion-order key enumeration of JS objects
  with non-numeric string keys.
* External collaborators (`extractDeclarations`, `extractDependenciesAndSize`
  from `analysis-helper`, the filesystem, `require`, `path.resolve`,
  `mapWorkspaceToPackages`) are fields of an environment record `Env`; the
  script is embedded as a pure function of the environment.
* Observable side effects (collaborator invocations, report writes, CI
  upload) are recorded in an explicit event trace (`List Event`), in program
  order; thrown errors become `Except.error` results.
-/

namespace SizeAnalysis

/-- Per-symbol result of the dependency/size extractor: the symbol's
transitive dependency list and its size contribution in bytes
(`ExportData` of `analysis-helper`). -/
structure ExportData where
  dependencies : List String
  size : Nat
  deriving DecidableEq, Repr

/-- Classification of the exported symbol names of a declaration file into
the four categories of `MemberList`.  The field `variables` of the source is
named `variables_` here because `variables` is reserved in Lean. -/
structure MemberList where
  classes : List String
  functions : List String
  variables_ : List String
  enums : List String
  deriving DecidableEq, Repr

/-- Concatenation of the four categories, in the fixed order classes,
functions, variables, enums — the order in which `buildJsonReport` walks
the `MemberList`. -/
def MemberList.members (api : MemberList) : List String :=
  api.classes ++ api.functions ++ api.variables_ ++ api.enums

/-- Keys of an association list, in insertion order. -/
def keysOf {α : Type} (m : List (String × α)) : List String :=
  m.map Prod.fst

/-- JavaScript property assignment `m[k] = v` (also the behaviour of
`Map.prototype.set`): overwrite in place if the key is present, append
otherwise. -/
def setKey {α : Type} (m : List (String × α)) (k : String) (v : α) :
    List (String × α) :=
  if k ∈ keysOf m then m.map (fun p => if p.1 = k then (k, v) else p)
  else m ++ [(k, v)]

/-- JavaScript property read `m[k]` / `Map.prototype.get`: value at the
first (hence, for objects, unique) occurrence of the key. -/
def getKey {α : Type} (m : List (String × α)) (k : String) : Option α :=
  match m with
  | [] => none
  | p :: rest => if p.1 = k then some p.2 else getKey rest k

/-- Error codes thrown by `analysis.ts` (the members of `ErrorCode` from
`analysis-helper` that this script uses). -/
inductive ErrorCode where
  | INPUT_FILE_DOES_NOT_EXIST
  | BUNDLE_FILE_DOES_NOT_EXIST
  | INVALID_FLAG_COMBINATION
  | REPORT_REDIRECTION_ERROR
  deriving DecidableEq, Repr

/-- Observable effects of a run, recorded in program order: invocations of
the two extractor collaborators, the two report writers, and the CI upload
stub. -/
inductive Event where
  | extractDeclarations (path : String)
  | extractDependenciesAndSize (symbol : String)
  | writeReportToFile (path : String)
  | writeReportToDirectory (fileName outputDir : String)
  | uploadReportToCI
  deriving DecidableEq, Repr

/-- Fields of a module's `package.json` that `analysis.ts` reads: `name`,
`typings` (the `TYPINGS` constant) and `esm2017` (the `BUNDLE` constant).
Absent fields are `none`. -/
structure PackageJson where
  name : String
  typings : Option String
  esm2017 : Option String
  deriving DecidableEq, Repr

/-- Environment of the script: filesystem, `path.resolve`, `require` of a
package manifest, the two extractor collaborators from `analysis-helper`
(external per the spec), directory listing restricted to subdirectories
(`readdirSync` filtered by `lstatSync(..).isDirectory()`), and the result of
`mapWorkspaceToPackages` (whose implementation is outside this repository's
sources). -/
structure Env where
  existsSync : String → Bool
  resolvePath : String → String
  readPackageJson : String → PackageJson
  extractDeclarations : String → MemberList
  extractDependenciesAndSize :
    String → String → List (String × String) → ExportData
  subdirsOf : String → List String
  workspacePackages : List String

/-- JavaScript truthiness of an optional string value (`undefined` and the
empty string are falsy). -/
def truthyS : Option String → Bool
  | none => false
  | some s => !(s == "")

/-- Embedding of `buildMap`: invert a `MemberList` into a map from symbol
name to category name via `Map.prototype.set`.

Modelled from the spec: the construction of the `MemberList` object happens
in `extractDeclarations` (in `analysis-helper`, outside this repository's
sources), so the `Object.keys` enumeration order of its four properties is
taken from the spec's fixed category order: classes, functions, variables,
enums. -/
def buildMap (api : MemberList) : List (String × String) :=
  let m0 := api.classes.foldl (fun m e => setKey m e "classes") []
  let m1 := api.functions.foldl (fun m e => setKey m e "functions") m0
  let m2 := api.variables_.foldl (fun m e => setKey m e "variables") m1
  api.enums.foldl (fun m e => setKey m e "enums") m2

/-- The `result` object assembled by `buildJsonReport`: one
`extractDependenciesAndSize` result per symbol, in category order classes,
functions, variables, enums, stored by JavaScript property assignment. -/
def buildJsonReportObject (publicApi : MemberList) (jsFile : String)
    (map : List (String × String))
    (extract : String → String → List (String × String) → ExportData) :
    List (String × ExportData) :=
  let r0 := publicApi.classes.foldl
    (fun r e => setKey r e (extract e jsFile map)) []
  let r1 := publicApi.functions.foldl
    (fun r e => setKey r e (extract e jsFile map)) r0
  let r2 := publicApi.variables_.foldl
    (fun r e => setKey r e (extract e jsFile map)) r1
  publicApi.enums.foldl (fun r e => setKey r e (extract e jsFile map)) r2

/-- JSON quoting of a symbol name (symbol names contain no characters that
need escaping). -/
def jsonQuote (s : String) : String := "\"" ++ s ++ "\""

/-- `JSON.stringify` of a string array with 4-space indentation, at the
nesting level whose closing bracket is indented by `pad`. -/
def stringifyStringArray (pad : String) (xs : List String) : String :=
  match xs with
  | [] => "[]"
  | _ => "[\n" ++
      String.intercalate ",\n" (xs.map (fun s => pad ++ "    " ++ jsonQuote s))
      ++ "\n" ++ pad ++ "]"

/-- `JSON.stringify` of one `ExportData` value with 4-space indentation, at
the nesting level whose closing brace is indented by `pad`. -/
def stringifyExportData (pad : String) (d : ExportData) : String :=
  "\x7b\n" ++ pad ++ "    \"dependencies\": "
    ++ stringifyStringArray (pad ++ "    ") d.dependencies
    ++ ",\n" ++ pad ++ "    \"size\": " ++ toString d.size
    ++ "\n" ++ pad ++ "\x7d"

/-- `JSON.stringify(result, null, 4)`: the report object serialized with
4-space indentation, keys in insertion order. -/
def stringifyReport (m : List (String × ExportData)) : String :=
  match m with
  | [] => "\x7b\x7d"
  | _ => "\x7b\n" ++
      String.intercalate ",\n"
        (m.map (fun p => "    " ++ jsonQuote p.1 ++ ": "
          ++ stringifyExportData "    " p.2))
      ++ "\n\x7d"

/-- Embedding of `buildJsonReport`: serialize the assembled report object,
together with the trace of extractor invocations it performs (one per symbol,
in category order). -/
def buildJsonReport (publicApi : MemberList) (jsFile : String)
    (map : List (String × String))
    (extract : String → String → List (String × String) → ExportData) :
    String × List Event :=
  (stringifyReport (buildJsonReportObject publicApi jsFile map extract),
   publicApi.members.map Event.extractDependenciesAndSize)

/-- Embedding of `generateReport`: resolve both input paths, fail with
`INPUT_FILE_DOES_NOT_EXIST` unless both exist, otherwise extract the
declarations, invert them, and build the JSON report (the bundle path is
passed on unresolved, as in the source). -/
def generateReport (env : Env) (dtsFile bundleFile : String) :
    Except ErrorCode String × List Event :=
  let resolvedDtsFile := env.resolvePath dtsFile
  let resolvedBundleFile := env.resolvePath bundleFile
  if !env.existsSync resolvedDtsFile || !env.existsSync resolvedBundleFile then
    (.error .INPUT_FILE_DOES_NOT_EXIST, [])
  else
    let publicAPI := env.extractDeclarations resolvedDtsFile
    let map := buildMap publicAPI
    let r := buildJsonReport publicAPI bundleFile map
      env.extractDependenciesAndSize
    (.ok r.1, Event.extractDeclarations resolvedDtsFile :: r.2)

/-- `path.basename`: the last `/`-separated component of a path. -/
def basename (p : String) : String :=
  (p.splitOn "/").getLastD p

/-- Embedding of `generateReportForModule`: skip silently when the directory
has no `package.json` or the manifest has no truthy `typings` field; fail
with `BUNDLE_FILE_DOES_NOT_EXIST` when `typings` is present but `esm2017` is
not; otherwise generate the report and route it according to the flags. -/
def generateReportForModule (env : Env) (path outputDirectory : String)
    (writeFiles uploadToCI : Bool) : Except ErrorCode Unit × List Event :=
  let packageJsonPath := path ++ "/package.json"
  if !env.existsSync packageJsonPath then (.ok (), [])
  else
    let packageJson := env.readPackageJson packageJsonPath
    if truthyS packageJson.typings then
      let dtsFile := path ++ "/" ++ packageJson.typings.getD ""
      if !truthyS packageJson.esm2017 then
        (.error .BUNDLE_FILE_DOES_NOT_EXIST, [])
      else
        let bundleFile := path ++ "/" ++ packageJson.esm2017.getD ""
        match generateReport env dtsFile bundleFile with
        | (.error e, tr) => (.error e, tr)
        | (.ok _json, tr) =>
          let fileName := basename packageJson.name ++ "-dependency.json"
          (.ok (), tr
            ++ (if writeFiles then
                [Event.writeReportToDirectory fileName
                  (env.resolvePath outputDirectory)]
              else [])
            ++ (if uploadToCI then [Event.uploadReportToCI] else []))
    else (.ok (), [])

/-- Embedding of `traverseDirs`: pre-order traversal that stops as soon as
`level` exceeds `levelLimit`.  Returns the list of `executor` invocations
(directory and the `level` value at the call) together with the concatenated
event traces of the invocations, in program order. -/
def traverseDirs (subdirsOf : String → List String)
    (executor : String → String → Bool → Bool → List Event)
    (moduleLocation outputDirectory : String) (writeFiles uploadToCI : Bool)
    (level levelLimit : Nat) : List (String × Nat) × List Event :=
  if _h : level > levelLimit then ([], [])
  else
    let ex := executor moduleLocation outputDirectory writeFiles uploadToCI
    let rest := (subdirsOf moduleLocation).map (fun nm =>
      traverseDirs subdirsOf executor (moduleLocation ++ "/" ++ nm)
        outputDirectory writeFiles uploadToCI (level + 1) levelLimit)
    ((moduleLocation, level) :: (rest.map Prod.fst).flatten,
     ex ++ (rest.map Prod.snd).flatten)
termination_by levelLimit + 1 - level
decreasing_by omega

/-- Directories exactly `k` levels below `root` in the filesystem described
by `subdirsOf`, with the same path construction as `traverseDirs`. -/
def dirsAtLevel (subdirsOf : String → List String) (root : String) :
    Nat → List String
  | 0 => [root]
  | k + 1 => ((subdirsOf root).map
      (fun nm => dirsAtLevel subdirsOf (root ++ "/" ++ nm) k)).flatten

/-- Embedding of `generateReportForModules`: traverse each module location
one level deep, running `generateReportForModule` on every visited directory.
The executor call in the source is not awaited, so a failing module does not
abort the traversal; only the event traces are observable. -/
def generateReportForModules (env : Env) (moduleLocations : List String)
    (outputDirectory : String) (writeFiles uploadToCI : Bool) : List Event :=
  (moduleLocations.map (fun loc =>
    (traverseDirs env.subdirsOf
      (fun p o w u => (generateReportForModule env p o w u).2)
      loc outputDirectory writeFiles uploadToCI 0 1).2)).flatten

/-- Parsed command-line options of the tool.  Unset flags are `none`; `ci`
defaults to `false`. -/
structure Argv where
  inputModule : Option (List String)
  inputDtsFile : Option String
  inputBundleFile : Option String
  ci : Bool
  output : Option String
  deriving DecidableEq, Repr

/-- Embedding of `main`: fail with `REPORT_REDIRECTION_ERROR` when neither
`--output` nor `--ci` is supplied; run adhoc analysis when `--inputDtsFile`,
`--inputBundleFile` and `--output` are all supplied; run batch analysis when
neither adhoc input is supplied; otherwise fail with
`INVALID_FLAG_COMBINATION`. -/
def main (env : Env) (argv : Argv) : Except ErrorCode Unit × List Event :=
  if !truthyS argv.output && !argv.ci then
    (.error .REPORT_REDIRECTION_ERROR, [])
  else if truthyS argv.inputDtsFile && truthyS argv.inputBundleFile
      && truthyS argv.output then
    match generateReport env (argv.inputDtsFile.getD "")
        (argv.inputBundleFile.getD "") with
    | (.error e, tr) => (.error e, tr)
    | (.ok _json, tr) =>
      (.ok (), tr ++ [Event.writeReportToFile
        (env.resolvePath (argv.output.getD ""))])
  else if !truthyS argv.inputDtsFile && !truthyS argv.inputBundleFile then
    let allModulesLocation := env.workspacePackages
    let filtered :=
      match argv.inputModule with
      | none => allModulesLocation
      | some mods => allModulesLocation.filter
          (fun path =>
            mods.contains (env.readPackageJson (path ++ "/package.json")).name)
    (.ok (), generateReportForModules env filtered (argv.output.getD "")
      (truthyS argv.output) argv.ci)
  else
    (.error .INVALID_FLAG_COMBINATION, [])

/-- Category name that wins in `buildMap` for a symbol present in several
categories: the last category containing it, in the fixed order classes,
functions, variables, enums. -/
def lastCategoryOf (api : MemberList) (s : String) : Option String :=
  if s ∈ api.enums then some "enums"
  else if s ∈ api.variables_ then some "variables"
  else if s ∈ api.functions then some "functions"
  else if s ∈ api.classes then some "classes"
  else none

/-- Names of the categories of a `MemberList` containing a given symbol. -/
def categoriesContaining (api : MemberList) (s : String) : List String :=
  (if s ∈ api.classes then ["classes"] else [])
    ++ (if s ∈ api.functions then ["functions"] else [])
    ++ (if s ∈ api.variables_ then ["variables"] else [])
    ++ (if s ∈ api.enums then ["enums"] else [])

/-- Number of entries of an association list with the given key. -/
def countKey {α : Type} (m : List (String × α)) (s : String) : Nat :=
  (keysOf m).count s

/-- Declaration-file content of the end-to-end scenario: one exported class
`Bar` and one exported function `foo`. -/
def apiC2 : MemberList := ⟨["Bar"], ["foo"], [], []⟩

/-- Extractor of the end-to-end scenario: `foo` has no dependencies and size
10, `Bar` depends on `foo` and has size 25. -/
def extractC2 : String → String → List (String × String) → ExportData :=
  fun symbol _ _ =>
    if symbol = "Bar" then ⟨["foo"], 25⟩
    else if symbol = "foo" then ⟨[], 10⟩
    else ⟨[], 0⟩

/-- Concrete environment used to instantiate the theorems: every path
exists, `resolve` is the identity, and every manifest declares typings but
no bundle. -/
def envW : Env where
  existsSync := fun _ => true
  resolvePath := fun p => p
  readPackageJson := fun _ => ⟨"@firebase/demo", some "index.d.ts", none⟩
  extractDeclarations := fun _ => ⟨[], [], [], []⟩
  extractDependenciesAndSize := fun _ _ _ => ⟨[], 0⟩
  subdirsOf := fun _ => []
  workspacePackages := []

/-- Concrete environment in which no path exists. -/
def envMissingW : Env :=
  { envW with existsSync := fun _ => false }

/-- Concrete two-level directory layout `root/a/b` used to instantiate the
traversal theorem. -/
def sdW : String → List String :=
  fun p => if p = "root" then ["a"] else if p = "root/a" then ["b"] else []

/-- Executor with an empty event trace, used to instantiate the traversal
theorem. -/
def exW : String → String → Bool → Bool → List Event :=
  fun _ _ _ _ => []

/-- MemberList with the symbol `dup` in both the classes and the functions
category. -/
def apiW10 : MemberList := ⟨["dup"], ["dup"], [], []⟩

/-- Constant extractor used to instantiate the duplicate-symbol theorem. -/
def extractW10 : String → String → List (String × String) → ExportData :=
  fun _ _ _ => ⟨[], 1⟩

/-- CLI invocation with only `--inputDtsFile` set. -/
def argvC5 : Argv := ⟨none, some "a.d.ts", none, false, none⟩

/-- CLI invocation with `--inputDtsFile` and `--output` set but no
`--inputBundleFile`. -/
def argvW5 : Argv := ⟨none, some "a.d.ts", none, false, some "out.json"⟩

/-- CLI invocation with no flag set at all. -/
def argvC6 : Argv := ⟨none, none, none, false, none⟩

/-- CLI invocation with both adhoc inputs and `--ci` set but no
`--output`. -/
def argvW9 : Argv := ⟨none, some "a.d.ts", some "b.js", true, none⟩

end SizeAnalysis

namespace AnalyticsCompat

/-- Handle to an analytics client instance (the value produced by `factory`
and resolved from the component container). -/
structure Analytics where
  id : Nat
  deriving DecidableEq, Repr

/-- Options argument of `logEvent` (`AnalyticsCallOptions`). -/
structure AnalyticsCallOptions where
  global : Bool
  deriving DecidableEq, Repr

/-- Error codes of the analytics error factory used by the registration
shim. -/
inductive AnalyticsError where
  | INTEROP_COMPONENT_REG_FAILED
  deriving DecidableEq, Repr

/-- Error created by `ERROR_FACTORY.create(code, { reason })`: the code and
the nested original failure. -/
structure InteropError where
  code : AnalyticsError
  reason : String
  deriving DecidableEq, Repr

/-- Component container as seen by `internalFactory`: the behaviour of
`container.getProvider(ANALYTICS_TYPE).getImmediate()`, which either yields
the analytics client or throws (modelled as `Except.error` carrying the
thrown value). -/
structure ComponentContainer where
  getAnalyticsImmediate : Except String Analytics

/-- The `FirebaseAnalyticsInternal` adapter object: its sole operation is
`logEvent`, abstracted over the result type of the forwarded call. -/
structure FirebaseAnalyticsInternal (ρ : Type) where
  logEvent : String → Option (List (String × String)) →
    Option AnalyticsCallOptions → ρ

/-- Embedding of `internalFactory` from the registration shim: resolve the
analytics client from the container and return an adapter forwarding
`logEvent(eventName, eventParams, options)` to it; wrap a lookup failure in
an `INTEROP_COMPONENT_REG_FAILED` error carrying the original failure as its
`reason`.

Modelled from the spec: the forwarded `logEvent` of `./api` is outside this
repository's sources, so it is an abstract parameter here; event parameters
(`\x7b [key: string]: unknown \x7d`) are modelled as string key/value
pairs. -/
def internalFactory {ρ : Type}
    (logEvent : Analytics → String → Option (List (String × String)) →
      Option AnalyticsCallOptions → ρ)
    (container : ComponentContainer) :
    Except InteropError (FirebaseAnalyticsInternal ρ) :=
  match container.getAnalyticsImmediate with
  | .ok analytics =>
    .ok ⟨fun eventName eventParams options =>
      logEvent analytics eventName eventParams options⟩
  | .error e =>
    .error ⟨AnalyticsError.INTEROP_COMPONENT_REG_FAILED, e⟩

/-- Concrete `logEvent` used to instantiate the adapter theorem: records the
client id and the event name. -/
def leW : Analytics → String → Option (List (String × String)) →
    Option AnalyticsCallOptions → Nat × String :=
  fun a n _ _ => (a.id, n)

/-- Container whose analytics lookup succeeds with client 7. -/
def cOkW : ComponentContainer := ⟨.ok ⟨7⟩⟩

/-- Container whose analytics lookup throws. -/
def cErrW : ComponentContainer := ⟨.error "lookup failed"⟩

end AnalyticsCompat

namespace SizeAnalysis

theorem keysOf_nil {α : Type} : keysOf ([] : List (String × α)) = [] := rfl

theorem keysOf_overwrite {α : Type} (m : List (String × α)) (k : String) (v : α) :
    keysOf (m.map (fun p => if p.1 = k then (k, v) else p)) = keysOf m := by
  induction m with
  | nil => rfl
  | cons p rest ih =>
    simp only [List.map_cons, keysOf] at *
    by_cases h : p.1 = k <;> simp [h, ih]

theorem keysOf_setKey {α : Type} (m : List (String × α)) (k : String) (v : α) :
    keysOf (setKey m k v) =
      if k ∈ keysOf m then keysOf m else keysOf m ++ [k] := by
  by_cases h : k ∈ keysOf m
  · rw [setKey, if_pos h, if_pos h, keysOf_overwrite]
  · rw [setKey, if_neg h, if_neg h]
    simp [keysOf]

theorem mem_keysOf_setKey {α : Type} (m : List (String × α)) (k a : String) (v : α) :
    a ∈ keysOf (setKey m k v) ↔ a ∈ keysOf m ∨ a = k := by
  rw [keysOf_setKey]
  by_cases h : k ∈ keysOf m
  · simp only [h, if_true]
    constructor
    · exact Or.inl
    · rintro (ha | rfl)
      · exact ha
      · exact h
  · simp [h]

theorem nodup_keysOf_setKey {α : Type} (m : List (String × α)) (k : String) (v : α)
    (hd : (keysOf m).Nodup) : (keysOf (setKey m k v)).Nodup := by
  rw [keysOf_setKey]
  by_cases h : k ∈ keysOf m
  · simpa [h] using hd
  · simp [h, List.nodup_append, hd, List.disjoint_singleton]

theorem getKey_map_ne {α : Type} (m : List (String × α)) (k a : String) (v : α)
    (hak : a ≠ k) :
    getKey (m.map (fun p => if p.1 = k then (k, v) else p)) a = getKey m a := by
  induction m with
  | nil => rfl
  | cons p rest ih =>
    by_cases hp : p.1 = k
    · have hka : ¬(k = a) := fun h => hak h.symm
      simp [getKey, hp, hka, ih]
    · simp [getKey, hp, ih]

theorem getKey_map_eq {α : Type} (m : List (String × α)) (k : String) (v : α)
    (h : k ∈ keysOf m) :
    getKey (m.map (fun p => if p.1 = k then (k, v) else p)) k = some v := by
  induction m with
  | nil => simp [keysOf] at h
  | cons p rest ih =>
    by_cases hp : p.1 = k
    · simp [List.map_cons, hp, getKey]
    · simp only [List.map_cons, hp, if_false, getKey]
      apply ih
      simp only [keysOf, List.map_cons, List.mem_cons] at h
      rcases h with h' | h'
      · exact absurd h'.symm hp
      · exact h'

theorem getKey_none_of_not_mem {α : Type} (m : List (String × α)) (a : String)
    (h : a ∉ keysOf m) : getKey m a = none := by
  induction m with
  | nil => rfl
  | cons p rest ih =>
    have hcons : keysOf (p :: rest) = p.1 :: keysOf rest := rfl
    rw [hcons, List.mem_cons, not_or] at h
    have hne : ¬(p.1 = a) := fun hpa => h.1 hpa.symm
    simp only [getKey, if_neg hne]
    exact ih h.2

theorem getKey_append {α : Type} (m m' : List (String × α)) (a : String) :
    getKey (m ++ m') a =
      match getKey m a with
      | some v => some v
      | none => getKey m' a := by
  induction m with
  | nil => rfl
  | cons p rest ih =>
    by_cases hp : p.1 = a <;> simp [getKey, hp, ih]

theorem getKey_setKey {α : Type} (m : List (String × α)) (k a : String) (v : α) :
    getKey (setKey m k v) a = if a = k then some v else getKey m a := by
  by_cases hmem : k ∈ keysOf m
  · rw [setKey, if_pos hmem]
    by_cases hak : a = k
    · subst hak
      rw [if_pos rfl]
      exact getKey_map_eq m a v hmem
    · rw [if_neg hak]
      exact getKey_map_ne m k a v hak
  · rw [setKey, if_neg hmem, getKey_append]
    by_cases hak : a = k
    · subst hak
      rw [getKey_none_of_not_mem m a hmem]
      simp [getKey]
    · cases h' : getKey m a with
      | none =>
        have hka : ¬(k = a) := fun hk => hak hk.symm
        simp [getKey, hka, hak]
      | some w => simp [hak]

theorem getKey_foldl_setKey {α : Type} (g : String → α) (L : List String)
    (r : List (String × α)) (s : String) :
    getKey (L.foldl (fun m e => setKey m e (g e)) r) s =
      if s ∈ L then some (g s) else getKey r s := by
  induction L generalizing r with
  | nil => simp
  | cons e L ih =>
    rw [List.foldl_cons, ih]
    by_cases hL : s ∈ L
    · simp [hL, List.mem_cons]
    · rw [getKey_setKey]
      by_cases hse : s = e
      · subst hse
        simp [hL]
      · simp [hL, hse]

theorem mem_keysOf_foldl_setKey {α : Type} (g : String → α) (L : List String)
    (r : List (String × α)) (s : String) :
    s ∈ keysOf (L.foldl (fun m e => setKey m e (g e)) r) ↔
      s ∈ keysOf r ∨ s ∈ L := by
  induction L generalizing r with
  | nil => simp
  | cons e L ih =>
    rw [List.foldl_cons, ih, mem_keysOf_setKey]
    constructor
    · rintro ((h | rfl) | h)
      · exact Or.inl h
      · exact Or.inr (List.mem_cons_self _ _)
      · exact Or.inr (List.mem_cons_of_mem _ h)
    · rintro (h | h)
      · exact Or.inl (Or.inl h)
      · rcases List.mem_cons.mp h with rfl | h'
        · exact Or.inl (Or.inr rfl)
        · exact Or.inr h'

theorem nodup_keysOf_foldl_setKey {α : Type} (g : String → α) (L : List String)
    (r : List (String × α)) (hd : (keysOf r).Nodup) :
    (keysOf (L.foldl (fun m e => setKey m e (g e)) r)).Nodup := by
  induction L generalizing r with
  | nil => exact hd
  | cons e L ih =>
    rw [List.foldl_cons]
    exact ih _ (nodup_keysOf_setKey r e (g e) hd)

theorem mem_keysOf_buildJsonReportObject (api : MemberList) (jsFile : String)
    (map : List (String × String))
    (extract : String → String → List (String × String) → ExportData)
    (s : String) :
    s ∈ keysOf (buildJsonReportObject api jsFile map extract) ↔
      s ∈ api.members := by
  simp only [buildJsonReportObject]
  rw [mem_keysOf_foldl_setKey, mem_keysOf_foldl_setKey,
    mem_keysOf_foldl_setKey, mem_keysOf_foldl_setKey]
  simp only [keysOf_nil, List.not_mem_nil, false_or, MemberList.members,
    List.mem_append]
  try tauto

theorem nodup_keysOf_buildJsonReportObject (api : MemberList) (jsFile : String)
    (map : List (String × String))
    (extract : String → String → List (String × String) → ExportData) :
    (keysOf (buildJsonReportObject api jsFile map extract)).Nodup := by
  simp only [buildJsonReportObject]
  apply nodup_keysOf_foldl_setKey
  apply nodup_keysOf_foldl_setKey
  apply nodup_keysOf_foldl_setKey
  apply nodup_keysOf_foldl_setKey
  simp [keysOf]

theorem getKey_buildJsonReportObject (api : MemberList) (jsFile : String)
    (map : List (String × String))
    (extract : String → String → List (String × String) → ExportData)
    (s : String) :
    getKey (buildJsonReportObject api jsFile map extract) s =
      if s ∈ api.members then some (extract s jsFile map) else none := by
  simp only [buildJsonReportObject]
  rw [getKey_foldl_setKey, getKey_foldl_setKey, getKey_foldl_setKey,
    getKey_foldl_setKey]
  by_cases h1 : s ∈ api.classes <;> by_cases h2 : s ∈ api.functions <;>
    by_cases h3 : s ∈ api.variables_ <;> by_cases h4 : s ∈ api.enums <;>
    simp [MemberList.members, h1, h2, h3, h4, getKey]

theorem getKey_buildMap (api : MemberList) (s : String) :
    getKey (buildMap api) s = lastCategoryOf api s := by
  simp only [buildMap]
  rw [getKey_foldl_setKey, getKey_foldl_setKey, getKey_foldl_setKey,
    getKey_foldl_setKey]
  simp only [lastCategoryOf, getKey]

/-- C1: for every declaration/bundle pair, the report object assembled by
`buildJsonReport` (and serialized by `generateReport`) has as keys exactly
the symbol names of the extracted `MemberList` — the union of its classes,
functions, variables and enums — each key occurring exactly once (the key
list is duplicate-free), and no other keys. -/
theorem report_keys_exactly_memberList (api : MemberList) (jsFile : String)
    (map : List (String × String))
    (extract : String → String → List (String × String) → ExportData) :
    (keysOf (buildJsonReportObject api jsFile map extract)).Nodup
    ∧ ∀ s, s ∈ keysOf (buildJsonReportObject api jsFile map extract) ↔
        s ∈ api.members :=
  ⟨nodup_keysOf_buildJsonReportObject api jsFile map extract,
   fun s => mem_keysOf_buildJsonReportObject api jsFile map extract s⟩

/-- C2: for the declaration file exporting exactly the class `Bar` and the
function `foo`, with the extractor returning dependencies `[]`/size 10 for
`foo` and dependencies `["foo"]`/size 25 for `Bar`, `buildJsonReport`
returns exactly this JSON text: the key `Bar` is serialized before the key
`foo` (classes are processed before functions) and nesting is indented by
4 spaces per level. -/
theorem buildJsonReport_end_to_end_scenario :
    (buildJsonReport apiC2 "bundle.js" (buildMap apiC2) extractC2).1 =
      "\x7b\n    \"Bar\": \x7b\n        \"dependencies\": [\n            \"foo\"\n        ],\n        \"size\": 25\n    \x7d,\n    \"foo\": \x7b\n        \"dependencies\": [],\n        \"size\": 10\n    \x7d\n\x7d" := by
  rfl

/-- C3: whenever a directory's manifest has a truthy type-declarations
(`typings`) entry but no truthy bundle (`esm2017`) entry,
`generateReportForModule` fails with `BUNDLE_FILE_DOES_NOT_EXIST` with an
empty event trace — in particular no `extractDependenciesAndSize`
invocation happens. -/
theorem generateReportForModule_bundle_missing (env : Env)
    (path outputDirectory : String) (writeFiles uploadToCI : Bool)
    (hpkg : env.existsSync (path ++ "/package.json") = true)
    (hty : truthyS (env.readPackageJson (path ++ "/package.json")).typings
      = true)
    (hbundle : truthyS (env.readPackageJson (path ++ "/package.json")).esm2017
      = false) :
    generateReportForModule env path outputDirectory writeFiles uploadToCI
      = (.error .BUNDLE_FILE_DOES_NOT_EXIST, [])
    ∧ ∀ s, Event.extractDependenciesAndSize s ∉
        (generateReportForModule env path outputDirectory writeFiles
          uploadToCI).2 := by
  have heq : generateReportForModule env path outputDirectory writeFiles
      uploadToCI = (.error .BUNDLE_FILE_DOES_NOT_EXIST, []) := by
    simp [generateReportForModule, hpkg, hty, hbundle]
  exact ⟨heq, fun s => by simp [heq]⟩

/-- Witness for C3 at a concrete environment whose manifest declares
`typings` but no `esm2017`. -/
theorem generateReportForModule_bundle_missing_witness :
    generateReportForModule envW "pkg" "out" true false
      = (.error .BUNDLE_FILE_DOES_NOT_EXIST, [])
    ∧ Event.extractDependenciesAndSize "foo" ∉
        (generateReportForModule envW "pkg" "out" true false).2 :=
  ⟨(generateReportForModule_bundle_missing envW "pkg" "out" true false
      rfl rfl rfl).1,
   (generateReportForModule_bundle_missing envW "pkg" "out" true false
      rfl rfl rfl).2 "foo"⟩

theorem traverseDirs_trace_aux (sd : String → List String)
    (ex : String → String → Bool → Bool → List Event) (o : String)
    (w u : Bool) (levelLimit : Nat) :
    ∀ fuel level m loc l, levelLimit + 1 - level ≤ fuel →
      (loc, l) ∈ (traverseDirs sd ex m o w u level levelLimit).1 →
      level ≤ l ∧ l ≤ levelLimit ∧ loc ∈ dirsAtLevel sd m (l - level) := by
  intro fuel
  induction fuel with
  | zero =>
    intro level m loc l hf h
    have hgt : level > levelLimit := by omega
    rw [traverseDirs] at h
    simp [hgt] at h
  | succ fuel ih =>
    intro level m loc l hf h
    rw [traverseDirs] at h
    by_cases hgt : level > levelLimit
    · simp [hgt] at h
    · simp only [hgt, dite_false, List.mem_cons, List.map_map,
        List.mem_flatten, List.mem_map] at h
      rcases h with heq | hmem
      · have h1 : loc = m := congrArg Prod.fst heq
        have h2 : l = level := congrArg Prod.snd heq
        subst h1; subst h2
        refine ⟨le_refl _, by omega, ?_⟩
        simp [dirsAtLevel]
      · obtain ⟨tr, ⟨nm, hnm, htr⟩, hmem'⟩ := hmem
        subst htr
        have hrec := ih (level + 1) (m ++ "/" ++ nm) loc l (by omega) hmem'
        refine ⟨by omega, hrec.2.1, ?_⟩
        have hl : l - level = (l - (level + 1)) + 1 := by omega
        rw [hl]
        simp only [dirsAtLevel, List.mem_flatten, List.mem_map]
        exact ⟨dirsAtLevel sd (m ++ "/" ++ nm) (l - (level + 1)),
          ⟨nm, hnm, rfl⟩, hrec.2.2⟩

/-- C4: in a traversal `traverseDirs(root, ..., level = 0, levelLimit)`, the
per-directory action is only ever invoked on directories at most
`levelLimit` levels below the root: every recorded invocation carries a
level `l ≤ levelLimit` and its directory lies exactly `l` levels below the
root, so deeper subdirectories are never visited. -/
theorem traverseDirs_never_exceeds_depth_limit (sd : String → List String)
    (ex : String → String → Bool → Bool → List Event)
    (root outputDirectory : String) (w u : Bool) (levelLimit : Nat)
    (loc : String) (l : Nat)
    (h : (loc, l) ∈
      (traverseDirs sd ex root outputDirectory w u 0 levelLimit).1) :
    l ≤ levelLimit ∧ loc ∈ dirsAtLevel sd root l := by
  have haux := traverseDirs_trace_aux sd ex outputDirectory w u levelLimit
    (levelLimit + 1) 0 root loc l (by omega) h
  exact ⟨haux.2.1, by simpa using haux.2.2⟩

/-- Witness for C4 on the concrete layout `root/a/b` with `levelLimit = 1`:
the invocation on `root/a` is at level 1 ≤ 1 and one level below the
root. -/
theorem traverseDirs_never_exceeds_depth_limit_witness :
    1 ≤ 1 ∧ "root/a" ∈ dirsAtLevel sdW "root" 1 := by
  apply traverseDirs_never_exceeds_depth_limit sdW exW "root" "out" false
    false 1 "root/a" 1
  simp [traverseDirs, sdW, exW]

/-- C5 counterexample: the invocation with only `--inputDtsFile` set (no
bundle file, no output, no ci) raises `REPORT_REDIRECTION_ERROR`, not
`INVALID_FLAG_COMBINATION` — the output-redirection check runs first. -/
theorem main_dts_only_counterexample :
    truthyS argvC5.inputDtsFile = true
    ∧ truthyS argvC5.inputBundleFile = false
    ∧ (main envW argvC5).1 = Except.error ErrorCode.REPORT_REDIRECTION_ERROR
    ∧ ErrorCode.REPORT_REDIRECTION_ERROR ≠ ErrorCode.INVALID_FLAG_COMBINATION :=
  ⟨rfl, rfl, rfl, by decide⟩

/-- C5 (amended): for every CLI invocation in which `--inputDtsFile` is set
(truthy), `--inputBundleFile` is not, and at least one of `--output` and
`--ci` is supplied (so that the earlier output-redirection check passes),
`main` raises `INVALID_FLAG_COMBINATION` with an empty event trace. -/
theorem main_dts_without_bundle_invalid_flag (env : Env) (argv : Argv)
    (hdts : truthyS argv.inputDtsFile = true)
    (hbundle : truthyS argv.inputBundleFile = false)
    (hredir : truthyS argv.output = true ∨ argv.ci = true) :
    main env argv = (.error .INVALID_FLAG_COMBINATION, []) := by
  rcases hredir with h | h <;> simp [main, hdts, hbundle, h]

/-- Witness for the amended C5 at a concrete invocation with
`--inputDtsFile` and `--output` set. -/
theorem main_dts_without_bundle_invalid_flag_witness :
    main envW argvW5 = (.error .INVALID_FLAG_COMBINATION, []) :=
  main_dts_without_bundle_invalid_flag envW argvW5 rfl rfl (Or.inl rfl)

/-- C6: for every CLI invocation in which neither `--output` nor `--ci` is
set, `main` raises `REPORT_REDIRECTION_ERROR` with an empty event trace —
in particular neither `writeReportToFile` nor `writeReportToDirectory` is
ever invoked. -/
theorem main_no_redirection_error (env : Env) (argv : Argv)
    (hout : truthyS argv.output = false) (hci : argv.ci = false) :
    main env argv = (.error .REPORT_REDIRECTION_ERROR, [])
    ∧ (∀ p, Event.writeReportToFile p ∉ (main env argv).2)
    ∧ ∀ f d, Event.writeReportToDirectory f d ∉ (main env argv).2 := by
  have heq : main env argv = (.error .REPORT_REDIRECTION_ERROR, []) := by
    simp [main, hout, hci]
  exact ⟨heq, fun p => by simp [heq], fun f d => by simp [heq]⟩

/-- Witness for C6 at the invocation with no flags at all. -/
theorem main_no_redirection_error_witness :
    main envW argvC6 = (.error .REPORT_REDIRECTION_ERROR, [])
    ∧ Event.writeReportToFile "r.json" ∉ (main envW argvC6).2
    ∧ Event.writeReportToDirectory "f.json" "d" ∉ (main envW argvC6).2 :=
  ⟨(main_no_redirection_error envW argvC6 rfl rfl).1,
   (main_no_redirection_error envW argvC6 rfl rfl).2.1 "r.json",
   (main_no_redirection_error envW argvC6 rfl rfl).2.2 "f.json" "d"⟩

/-- C7: `generateReport` fails with `INPUT_FILE_DOES_NOT_EXIST` exactly when
at least one of the two input paths does not resolve to an existing file,
and in that case its event trace is empty: neither `extractDeclarations`
nor any `extractDependenciesAndSize` call is performed. -/
theorem generateReport_missing_input_iff (env : Env)
    (dtsFile bundleFile : String) :
    ((generateReport env dtsFile bundleFile).1
        = Except.error ErrorCode.INPUT_FILE_DOES_NOT_EXIST
      ↔ (env.existsSync (env.resolvePath dtsFile) = false
          ∨ env.existsSync (env.resolvePath bundleFile) = false))
    ∧ ((env.existsSync (env.resolvePath dtsFile) = false
        ∨ env.existsSync (env.resolvePath bundleFile) = false)
      → (generateReport env dtsFile bundleFile).2 = []) := by
  cases h1 : env.existsSync (env.resolvePath dtsFile) <;>
    cases h2 : env.existsSync (env.resolvePath bundleFile) <;>
    simp [generateReport, h1, h2]

/-- Witness for C7 at an environment in which the declaration file is
missing: the trace is empty. -/
theorem generateReport_missing_input_iff_witness :
    (generateReport envMissingW "a.d.ts" "b.js").2 = [] :=
  (generateReport_missing_input_iff envMissingW "a.d.ts" "b.js").2
    (Or.inl rfl)

/-- C9: for every CLI invocation with both `--inputDtsFile` and
`--inputBundleFile` set and `--ci` set but `--output` absent, `main` raises
`INVALID_FLAG_COMBINATION` with an empty event trace: the adhoc branch
requires `--output` specifically, so no adhoc analysis is performed. -/
theorem main_adhoc_requires_output (env : Env) (argv : Argv)
    (hdts : truthyS argv.inputDtsFile = true)
    (hbundle : truthyS argv.inputBundleFile = true)
    (hci : argv.ci = true)
    (hout : truthyS argv.output = false) :
    main env argv = (.error .INVALID_FLAG_COMBINATION, []) := by
  simp [main, hdts, hbundle, hci, hout]

/-- Witness for C9 at a concrete invocation with both adhoc inputs and
`--ci` set. -/
theorem main_adhoc_requires_output_witness :
    main envW argvW9 = (.error .INVALID_FLAG_COMBINATION, []) :=
  main_adhoc_requires_output envW argvW9 rfl rfl rfl rfl

/-- C10: if a symbol name appears in more than one `MemberList` category,
no error is raised (both functions are total): `buildMap` maps the symbol
to the last category containing it in the order classes, functions,
variables, enums, and the report object contains exactly one entry for the
symbol, holding the extraction result for it — the value written while
processing that last category, earlier writes being overwritten. -/
theorem duplicate_symbol_last_category_wins (api : MemberList)
    (jsFile : String) (map : List (String × String))
    (extract : String → String → List (String × String) → ExportData)
    (s : String)
    (hmulti : 2 ≤ (categoriesContaining api s).length) :
    getKey (buildMap api) s = lastCategoryOf api s
    ∧ countKey (buildJsonReportObject api jsFile map extract) s = 1
    ∧ getKey (buildJsonReportObject api jsFile map extract) s
        = some (extract s jsFile map) := by
  have hs : s ∈ api.members := by
    by_contra hs
    simp only [MemberList.members, List.mem_append, not_or] at hs
    obtain ⟨⟨⟨hc, hf⟩, hv⟩, he⟩ := hs
    simp [categoriesContaining, hc, hf, hv, he] at hmulti
  refine ⟨getKey_buildMap api s, ?_, ?_⟩
  · exact List.count_eq_one_of_mem
      (nodup_keysOf_buildJsonReportObject api jsFile map extract)
      ((mem_keysOf_buildJsonReportObject api jsFile map extract s).mpr hs)
  · rw [getKey_buildJsonReportObject]
    simp [hs]

/-- Witness for C10 at a `MemberList` with `dup` in both the classes and the
functions category: `buildMap` yields `functions` and the report has one
entry for `dup`. -/
theorem duplicate_symbol_last_category_wins_witness :
    getKey (buildMap apiW10) "dup" = lastCategoryOf apiW10 "dup"
    ∧ countKey (buildJsonReportObject apiW10 "b.js" [] extractW10) "dup" = 1
    ∧ getKey (buildJsonReportObject apiW10 "b.js" [] extractW10) "dup"
        = some (extractW10 "dup" "b.js" []) :=
  duplicate_symbol_last_category_wins apiW10 "b.js" [] extractW10 "dup"
    (by decide)

end SizeAnalysis

namespace AnalyticsCompat

/-- C8: `internalFactory` returns an adapter whose sole operation forwards
`logEvent(eventName, eventParams, options)` to the analytics client resolved
from the container, and when the container lookup fails it returns a single
`INTEROP_COMPONENT_REG_FAILED` error whose nested `reason` is the original
failure. -/
theorem internalFactory_forwards_and_wraps {ρ : Type}
    (logEvent : Analytics → String → Option (List (String × String)) →
      Option AnalyticsCallOptions → ρ)
    (container : ComponentContainer) :
    (∀ a, container.getAnalyticsImmediate = .ok a →
      internalFactory logEvent container
        = .ok ⟨fun eventName eventParams options =>
            logEvent a eventName eventParams options⟩)
    ∧ ∀ e, container.getAnalyticsImmediate = .error e →
      internalFactory logEvent container
        = .error ⟨AnalyticsError.INTEROP_COMPONENT_REG_FAILED, e⟩ := by
  constructor
  · intro a ha
    simp [internalFactory, ha]
  · intro e he
    simp [internalFactory, he]

/-- Witness for C8: a successful lookup yields the forwarding adapter, and a
failing lookup yields the wrapped error with the original reason. -/
theorem internalFactory_forwards_and_wraps_witness :
    internalFactory leW cOkW = .ok ⟨fun n p o => leW ⟨7⟩ n p o⟩
    ∧ internalFactory leW cErrW
        = .error ⟨AnalyticsError.INTEROP_COMPONENT_REG_FAILED,
            "lookup failed"⟩ :=
  ⟨(internalFactory_forwards_and_wraps leW cOkW).1 ⟨7⟩ rfl,
   (internalFactory_forwards_and_wraps leW cErrW).2 "lookup failed" rfl⟩

end AnalyticsCompat
